import Mathlib

/-!
Verification of check_hp_disk_firmware / check_hp_firmware (Go).

Shallow embedding: Go strings are modelled as `List Char` (the functions under
study operate on ASCII data, where Go's byte- and rune-level views coincide).
Go functions that can panic (out-of-range string slicing) are modelled with an
`Option` result, `none` standing for the panic.
-/

namespace CheckHpFirmware

/-- Go strings, modelled as lists of characters. -/
abbrev Str : Type := List Char

/-- Convert a Lean string literal into the `Str` model. -/
def str (s : String) : Str := s.toList

/-- Property that `needle` occurs contiguously inside `hay`. -/
def containsSub (needle hay : Str) : Prop := ∃ s t, hay = s ++ needle ++ t

/-- Loop body of `IsOid` (`for _, char := range oid[1:]`), carrying `lastChar`;
returns the final `lastChar == '.'` check as well. -/
def isOidLoop (lastChar : Char) : Str → Bool
  | [] => !(lastChar == '.')
  | c :: rest =>
    if c == '.' then
      if lastChar == '.' then false else isOidLoop c rest
    else if !('0' ≤ c && c ≤ '9') then false
    else isOidLoop c rest

/-- Embedding of `snmp.IsOid`: rejects empty strings, strings not starting
with '.', strings shorter than 2, then scans for consecutive dots,
non-digit characters, and a trailing dot. -/
def IsOid (oid : Str) : Bool :=
  match oid with
  | [] => false
  | c :: rest =>
    if c == '.' then
      match rest with
      | [] => false
      | _ :: _ => isOidLoop '.' rest
    else false

example : IsOid (str ".1.1") = true := by decide
example : IsOid (str "1.1") = false := by decide
example : IsOid (str ".1..1") = false := by decide
example : IsOid (str ".1.1.") = false := by decide
example : IsOid (str ".") = false := by decide
example : IsOid (str "") = false := by decide

/-- Embedding of `snmp.IsOidPartOf`. Go evaluates `oid[:lenBase] == baseOid`,
which panics when `lenBase > len(oid)`; the panic is modelled as `none`. -/
def IsOidPartOf (oid baseOid : Str) : Option Bool :=
  if !(IsOid oid) || !(IsOid baseOid) then some false
  else
    let lenBase := baseOid.length
    if oid.length < lenBase then none
    else if oid.take lenBase = baseOid then
      if oid.length = lenBase then some true
      else if (oid.take (lenBase + 1)).drop lenBase = ['.'] then some true
      else some false
    else some false

example : IsOidPartOf (str ".1.3.6.1.1.5.1.1") (str ".1.3.6.1.1.5") = some true := by decide
example : IsOidPartOf (str ".1.3.6.1.1.50") (str ".1.3.6.1.1.5") = some false := by decide
example : IsOidPartOf (str ".1.3") (str ".1.3") = some true := by decide
example : IsOidPartOf (str ".1") (str ".1.2") = none := by decide
example : IsOidPartOf (str "x") (str ".1.2") = some false := by decide

/-- Embedding of `snmp.GetSubOid`. After the guards, Go returns `oid[l+1:]`
with `l = len(baseOid)`, which panics when `l+1 > len(oid)` — in particular
when `oid = baseOid`. The panic (of the slice, or of the inner
`IsOidPartOf` call) is modelled as `none`. -/
def GetSubOid (oid baseOid : Str) : Option Str :=
  if !(IsOid oid) || !(IsOid baseOid) then some []
  else
    match IsOidPartOf oid baseOid with
    | none => none
    | some false => some []
    | some true =>
      let l := baseOid.length
      if oid.length < l + 1 then none
      else some (oid.drop (l + 1))

example : GetSubOid (str ".1.3.6.1.1.5.1.1") (str ".1.3.6.1.1.5") = some (str "1.1") := by decide
example : GetSubOid (str ".1.3") (str ".1.3") = none := by decide
example : GetSubOid (str "x") (str ".1.3") = some [] := by decide

/-- SNMP protocol versions (`gosnmp.Version1` / `Version2c` / `Version3`). -/
inductive SnmpVersion where
  | Version1
  | Version2c
  | Version3
deriving DecidableEq

/-- The fields of the `gosnmp.GoSNMP` client that `snmp.SetVersion`
touches. -/
structure GoSNMP where
  Version : SnmpVersion
deriving DecidableEq

/-- Embedding of `snmp.SetVersion`: the switch over the version selector
string. Returns the updated client and the error (`none` = nil error). -/
def SetVersion (client : GoSNMP) (version : Str) : GoSNMP × Option Str :=
  if version = str "1" then
    ({ client with Version := .Version1 }, none)
  else if version = str "2" ∨ version = str "2c" then
    ({ client with Version := .Version2c }, none)
  else if version = str "3" then
    ({ client with Version := .Version3 }, some (str "SNMPv3 config not implemented"))
  else
    (client, some (str "unknown SNMP version: " ++ version))

example : (SetVersion ⟨.Version1⟩ (str "2c")).2 = none := by decide
example : (SetVersion ⟨.Version1⟩ (str "3")).1.Version = .Version3 := by decide
example : (SetVersion ⟨.Version1⟩ (str "3")).2.isSome = true := by decide

/-- Modelled from the spec: the nagios severity constant OK, mapped to the
monitoring exit-status convention 0/1/2/3 (spec §6); the `nagios` package
itself is not among the available sources. -/
def OK : Nat := 0

/-- Modelled from the spec: the nagios severity constant WARNING. -/
def Warning : Nat := 1

/-- Modelled from the spec: the nagios severity constant CRITICAL. -/
def Critical : Nat := 2

/-- Modelled from the spec: the nagios severity constant UNKNOWN. -/
def Unknown : Nat := 3

/-- The `phy_drv.PhysicalDrive` record, fields as used by the test
`TestPhysicalDrive_GetNagiosStatus`. -/
structure PhysicalDrive where
  Id : Str
  Model : Str
  FwRev : Str
  Serial : Str
  Status : Str
  Hours : Int

/-- Lexicographic (Go `<` on strings, bytewise) comparison of `Str`. -/
def strLt : Str → Str → Bool
  | [], [] => false
  | [], _ :: _ => true
  | _ :: _, [] => false
  | a :: as, b :: bs =>
    if a < b then true
    else if b < a then false
    else strLt as bs

/-- Modelled from the spec: the static affected-drive rule table mapping an
affected model identifier to its known fix firmware version; the rules file
of the `phy_drv` package is not among the available sources, the pair below
is the one the spec and the package's test name (`VO0480JFDGT` with fix
version `HPD8`). -/
def affectedDrives : List (Str × Str) := [(str "VO0480JFDGT", str "HPD8")]

/-- Modelled from the spec: the per-drive rule evaluation
`PhysicalDrive.GetNagiosStatus`, whose implementation is not among the
available sources. Following spec §4.4 and the package's test: a neutral
descriptive message echoes id/model/serial/firmware/hours; a non-"ok" device
status forces CRITICAL with "status: ..." before any firmware rule; an
affected model with firmware below the fix version is CRITICAL
("affected by FW bug"), with firmware at or above the fix version OK
("firmware update applied"); otherwise OK. The neutral descriptive part of
the message comes first: -/
def driveInfo (d : PhysicalDrive) : Str :=
  str "(" ++ d.Id ++ str " ) model=" ++ d.Model ++ str " serial=" ++ d.Serial
    ++ str " firmware=" ++ d.FwRev ++ str " hours=" ++ str (toString d.Hours)

/-- Modelled from the spec: the rule evaluation itself, see `driveInfo`. -/
def GetNagiosStatus (d : PhysicalDrive) : Nat × Str :=
  let info := driveInfo d
  if d.Status ≠ str "ok" then
    (Critical, info ++ str " - status: " ++ d.Status)
  else
    match affectedDrives.lookup d.Model with
    | some fixVersion =>
      if strLt d.FwRev fixVersion then
        (Critical, info ++ str " - affected by FW bug, update immediately!")
      else
        (OK, info ++ str " - firmware update applied")
    | none => (OK, info)

example :
    GetNagiosStatus ⟨str "1.1", str "VO0480JFDGT", str "HPD1", str "ABC123", str "ok", 1337⟩
      = (Critical, str "(1.1 ) model=VO0480JFDGT serial=ABC123 firmware=HPD1 hours=1337 - affected by FW bug, update immediately!") := by
  decide

example :
    (GetNagiosStatus ⟨str "1.1", str "VO0480JFDGT", str "HPD8", str "ABC123", str "ok", 1337⟩).1
      = OK := by decide

example :
    (GetNagiosStatus ⟨str "1.1", str "OTHERDRIVE", str "HPD1", str "ABC123", str "ok", 1337⟩).1
      = OK := by decide

example :
    (GetNagiosStatus ⟨str "1.1", str "OTHERDRIVE", str "HPD1", str "ABC123", str "failed", 1337⟩).1
      = Critical := by decide

/-- Modelled from the spec: the `nagios.Overall` aggregator state — one
counter per severity, an ordered log of messages, and the summary line set
by the caller; the `nagios` package is not among the available sources. -/
structure Overall where
  OKs : Nat := 0
  Warnings : Nat := 0
  Criticals : Nat := 0
  Unknowns : Nat := 0
  Summary : Str := []
  Outputs : List Str := []
deriving DecidableEq

/-- Modelled from the spec: `Overall.Add(severity, message)` appends the
message to the ordered log and increments the counter for that severity. -/
def OverallAdd (o : Overall) (state : Nat) (output : Str) : Overall :=
  let o :=
    if state = OK then { o with OKs := o.OKs + 1 }
    else if state = Warning then { o with Warnings := o.Warnings + 1 }
    else if state = Critical then { o with Criticals := o.Criticals + 1 }
    else { o with Unknowns := o.Unknowns + 1 }
  { o with Outputs := o.Outputs ++ [output] }

/-- Modelled from the spec: `Overall.GetStatus` — CRITICAL if any CRITICAL
was added, else WARNING if any WARNING was added, else OK if at least one
record was added, else UNKNOWN. -/
def OverallGetStatus (o : Overall) : Nat :=
  if 0 < o.Criticals then Critical
  else if 0 < o.Warnings then Warning
  else if o.Outputs ≠ [] then OK
  else Unknown

/-- Concatenate messages, each on its own line (preceded by a newline). -/
def joinLines : List Str → Str
  | [] => []
  | m :: ms => '\n' :: (m ++ joinLines ms)

/-- Modelled from the spec: `Overall.GetOutput` — the summary line followed
by the ordered per-record messages, one per line, in Add-call order. -/
def OverallGetOutput (o : Overall) : Str :=
  o.Summary ++ joinLines o.Outputs

/-- Run a sequence of `Add(severity, message)` calls on a fresh aggregator. -/
def runAdds (calls : List (Nat × Str)) : Overall :=
  calls.foldl (fun o c => OverallAdd o c.1 c.2) {}

example : OverallGetStatus (runAdds []) = Unknown := by decide
example : OverallGetStatus (runAdds [(OK, str "a")]) = OK := by decide
example : OverallGetStatus (runAdds [(OK, str "a"), (Critical, str "b")]) = Critical := by decide
example : (runAdds [(OK, str "a"), (Critical, str "b")]).Outputs = [str "a", str "b"] := by decide

/-- How a run of `main` ends: `nagios.Exit(code, message)` or
`nagios.ExitError(err)`. -/
inductive MainOutcome where
  | exit (code : Nat) (message : Str)
  | exitError (message : Str)
deriving DecidableEq

/-- Embedding of the tail of `main` (after both SNMP tables are loaded):
the empty-table checks, the two extraction calls, the two evaluation loops
feeding the aggregator, and the summary/exit. The extractors
(`cntlr.GetControllersFromTable`, `phy_drv.GetPhysicalDrivesFromTable`) and
the per-record evaluations are passed as parameters; `cntlrValues` and
`driveValues` stand for `cntlrTable.Snmp.Values` and
`driveTable.Snmp.Values`. -/
def mainEvaluate {V C D : Type}
    (getControllersFromTable : List V → Except Str (List C))
    (getPhysicalDrivesFromTable : List V → Except Str (List D))
    (controllerNagiosStatus : C → Nat × Str)
    (driveNagiosStatus : D → Nat × Str)
    (cntlrValues driveValues : List V) : MainOutcome :=
  if cntlrValues.length = 0 then .exit 3 (str "No HP controller data found!")
  else
    match getControllersFromTable cntlrValues with
    | .error e => .exitError e
    | .ok controllers =>
      if driveValues.length = 0 then .exit 3 (str "No HP drive data found!")
      else
        match getPhysicalDrivesFromTable driveValues with
        | .error e => .exitError e
        | .ok drives =>
          let overallC := controllers.foldl
            (fun o c => OverallAdd o (controllerNagiosStatus c).1 (controllerNagiosStatus c).2) {}
          let countControllers := controllers.length
          let overallD := drives.foldl
            (fun o d => OverallAdd o (driveNagiosStatus d).1 (driveNagiosStatus d).2) overallC
          let countDrives := drives.length
          let status := OverallGetStatus overallD
          let summary :=
            if status = OK then
              str "All " ++ str (toString countControllers) ++ str " controllers and "
                ++ str (toString countDrives) ++ str " drives seem fine"
            else if status = Warning then
              str "Found " ++ str (toString overallD.Warnings) ++ str " warnings"
            else if status = Critical then
              str "Found " ++ str (toString overallD.Criticals) ++ str " critical problems"
            else []
          .exit status (OverallGetOutput { overallD with Summary := summary })

/-- How the SNMP client-setup phase of `main` (live-connection branch) ends:
either `nagios.ExitError` on a `SetVersion` error, before any connect or
table walk, or proceeding to `Connect` with the configured client. -/
inductive ClientSetup where
  | exitedError (message : Str)
  | proceedToConnect (client : GoSNMP)
deriving DecidableEq

/-- Embedding of the `main` fragment
`if err := snmp.SetVersion(client, *protocol); err != nil { nagios.ExitError(err) }`:
on a version error the process exits before connecting or walking any
table. -/
def mainClientSetup (client : GoSNMP) (protocol : Str) : ClientSetup :=
  match SetVersion client protocol with
  | (c, none) => .proceedToConnect c
  | (_, some e) => .exitedError e

example :
    mainEvaluate (fun _ : List Nat => Except.ok ([] : List Nat))
      (fun _ => Except.ok ([] : List Nat)) (fun _ => (OK, [])) (fun _ => (OK, []))
      [] [1] = .exit 3 (str "No HP controller data found!") := by decide

example :
    mainEvaluate (fun _ : List Nat => Except.ok ([0] : List Nat))
      (fun _ => Except.ok ([] : List Nat)) (fun _ => (OK, str "c ok")) (fun _ => (OK, []))
      [1] [] = .exit 3 (str "No HP drive data found!") := by decide

example :
    mainClientSetup ⟨.Version1⟩ (str "4") = .exitedError (str "unknown SNMP version: 4") := by
  decide

/-- The spec's Path invariant, stated independently of the code: non-empty,
leading separator, no two consecutive separators, no trailing separator,
every non-separator character a decimal digit. -/
def IsPathSpec (s : Str) : Prop :=
  s ≠ [] ∧ s.head? = some '.'
    ∧ List.Chain' (fun a b => ¬(a = '.' ∧ b = '.')) s
    ∧ s.getLast? ≠ some '.'
    ∧ ∀ c ∈ s, c = '.' ∨ ('0' ≤ c ∧ c ≤ '9')

/-- The spec's sub-path relation, stated independently of the code: both
arguments are valid paths, and child equals parent or child begins with
parent followed immediately by a separator. -/
def IsSubPathSpec (child parent : Str) : Prop :=
  IsOid child = true ∧ IsOid parent = true
    ∧ (child = parent ∨ ∃ rest, child = parent ++ '.' :: rest)

/-- Claim C10: `SetVersion` with selector "3" both assigns `Version3` to the
client's Version field and returns a non-nil error ("SNMPv3 config not
implemented"): an error return does not imply the client state was left
unchanged. -/
theorem setVersion_three_assigns_and_errors (client : GoSNMP) :
    (SetVersion client (str "3")).1.Version = SnmpVersion.Version3
      ∧ (SetVersion client (str "3")).2 = some (str "SNMPv3 config not implemented") := by
  constructor <;> rfl

/-- Claim C6: for every protocol-version selector outside {"1", "2", "2c"},
`SetVersion` returns a non-nil error, and `main` treats the error as fatal:
the client-setup phase ends in `ExitError` before any connect or table
walk. -/
theorem setVersion_unknown_is_fatal (client : GoSNMP) (v : Str)
    (h1 : v ≠ str "1") (h2 : v ≠ str "2") (h3 : v ≠ str "2c") :
    (SetVersion client v).2.isSome = true
      ∧ ∃ e, (SetVersion client v).2 = some e
        ∧ mainClientSetup client v = .exitedError e := by
  have hv : (SetVersion client v).2.isSome = true := by
    unfold SetVersion
    rw [if_neg h1, if_neg (fun h => h.elim h2 h3)]
    split <;> rfl
  refine ⟨hv, ?_⟩
  unfold mainClientSetup
  rcases hS : SetVersion client v with ⟨c, e⟩
  cases e with
  | none => rw [hS] at hv; simp at hv
  | some msg => exact ⟨msg, rfl, rfl⟩

/-- Claim C6 witness: the selector "v9" is outside the recognized set and is
rejected fatally before connecting. -/
theorem setVersion_unknown_is_fatal_witness :
    (SetVersion ⟨.Version1⟩ (str "v9")).2.isSome = true
      ∧ ∃ e, (SetVersion ⟨.Version1⟩ (str "v9")).2 = some e
        ∧ mainClientSetup ⟨.Version1⟩ (str "v9") = .exitedError e :=
  setVersion_unknown_is_fatal ⟨.Version1⟩ (str "v9")
    (by decide) (by decide) (by decide)

/-- Claim C2 counterexample: ".1" is a valid path, yet `GetSubOid ".1" ".1"` does
not return the empty string — the Go expression `oid[l+1:]` slices past the
end of the string and panics (modelled as `none`). -/
theorem getSubOid_equal_paths_counterexample :
    IsOid (str ".1") = true ∧ GetSubOid (str ".1") (str ".1") = none
      ∧ GetSubOid (str ".1") (str ".1") ≠ some [] := by
  decide

/-- Claim C2 amended: for every valid path p, `GetSubOid p p` panics (slice out
of range, modelled as `none`) instead of returning the empty string. -/
theorem getSubOid_equal_paths_panics (p : Str) (h : IsOid p = true) :
    GetSubOid p p = none := by
  unfold GetSubOid IsOidPartOf
  simp [h, List.take_length, Nat.lt_succ_self]

/-- Claim C2 witness: the panic on equal paths at the concrete path ".1.3". -/
theorem getSubOid_equal_paths_panics_witness :
    IsOid (str ".1.3") = true ∧ GetSubOid (str ".1.3") (str ".1.3") = none :=
  ⟨by decide, getSubOid_equal_paths_panics (str ".1.3") (by decide)⟩

/-- Claim C1 counterexample: with an empty controller table and a non-empty drive
table (whose extractor would yield one drive, evaluated CRITICAL with the
message "drive evaluated"), the run ends at the controller check with
`nagios.Exit(3, "No HP controller data found!")` — the whole process
terminates, so the drive records are not extracted or evaluated. -/
theorem mainEvaluate_emptyCntlr_counterexample :
    mainEvaluate (fun _ : List Nat => Except.ok ([] : List Nat))
        (fun _ => Except.ok ([0] : List Nat)) (fun _ => (OK, []))
        (fun _ => (Critical, str "drive evaluated")) [] [1]
      = .exit 3 (str "No HP controller data found!") := by
  decide

/-- Claim C1 amended: when the controller table is empty, `main` exits the whole
process with code 3 and "No HP controller data found!" regardless of the
drive table's contents; the outcome is independent of the per-record
evaluation functions (no evaluation of either device class occurs). -/
theorem mainEvaluate_emptyCntlr {V C D : Type}
    (getC : List V → Except Str (List C)) (getD : List V → Except Str (List D))
    (evalC : C → Nat × Str) (evalD : D → Nat × Str) (driveValues : List V) :
    mainEvaluate getC getD evalC evalD [] driveValues
        = .exit 3 (str "No HP controller data found!")
      ∧ ∀ (evalC' : C → Nat × Str) (evalD' : D → Nat × Str),
          mainEvaluate getC getD evalC evalD [] driveValues
            = mainEvaluate getC getD evalC' evalD' [] driveValues :=
  ⟨rfl, fun _ _ => rfl⟩

/-- Claim C5: whenever a mandatory table has zero values, `main` exits with the
UNKNOWN code 3 and the corresponding "No HP ... data found!" message, and
it does so before any per-record evaluation: the outcome does not depend on
the per-record evaluation functions. -/
theorem mainEvaluate_emptyTable_exits {V C D : Type}
    (getC : List V → Except Str (List C)) (getD : List V → Except Str (List D))
    (evalC : C → Nat × Str) (evalD : D → Nat × Str) (cv dv : List V) :
    (cv = [] → mainEvaluate getC getD evalC evalD cv dv
        = .exit 3 (str "No HP controller data found!"))
      ∧ (∀ cs, getC cv = .ok cs → dv = [] →
          mainEvaluate getC getD evalC evalD cv dv
              = .exit 3 (str "No HP controller data found!")
            ∨ mainEvaluate getC getD evalC evalD cv dv
              = .exit 3 (str "No HP drive data found!"))
      ∧ ((cv = [] ∨ dv = []) → ∀ (evalC' : C → Nat × Str) (evalD' : D → Nat × Str),
          mainEvaluate getC getD evalC evalD cv dv
            = mainEvaluate getC getD evalC' evalD' cv dv) := by
  refine ⟨?_, ?_, ?_⟩
  · intro h; subst h; rfl
  · intro cs hok hdv
    subst hdv
    by_cases hcv : cv.length = 0
    · left
      unfold mainEvaluate
      rw [if_pos hcv]
    · right
      unfold mainEvaluate
      rw [if_neg hcv, hok]
      rfl
  · intro h evalC' evalD'
    rcases h with h | h
    · subst h; rfl
    · subst h
      by_cases hcv : cv.length = 0
      · unfold mainEvaluate
        rw [if_pos hcv, if_pos hcv]
      · unfold mainEvaluate
        rw [if_neg hcv, if_neg hcv]
        cases hok : getC cv <;> rfl

/-- Claim C5 witness: concrete empty controller table and concrete empty drive
table each end the run in `Exit(3, ...)` with the matching message. -/
theorem mainEvaluate_emptyTable_exits_witness :
    mainEvaluate (fun _ : List Nat => Except.ok ([] : List Nat))
        (fun _ => Except.ok ([] : List Nat)) (fun _ => (OK, [])) (fun _ => (OK, []))
        [] [1] = .exit 3 (str "No HP controller data found!")
      ∧ (mainEvaluate (fun _ : List Nat => Except.ok ([] : List Nat))
            (fun _ => Except.ok ([] : List Nat)) (fun _ => (OK, [])) (fun _ => (OK, []))
            [7] [] = .exit 3 (str "No HP controller data found!")
          ∨ mainEvaluate (fun _ : List Nat => Except.ok ([] : List Nat))
            (fun _ => Except.ok ([] : List Nat)) (fun _ => (OK, [])) (fun _ => (OK, []))
            [7] [] = .exit 3 (str "No HP drive data found!")) :=
  ⟨(mainEvaluate_emptyTable_exits _ _ _ _ [] [1]).1 rfl,
   (mainEvaluate_emptyTable_exits _ _ _ _ [7] []).2.1 [] rfl rfl⟩

/-- Claim C7: for a drive whose model is in the affected table and whose device
status is ok, severity is decided by the model+firmware pair: firmware
below the fix version gives CRITICAL with a message containing "affected",
firmware at or above the fix version gives OK with a message containing
"applied". -/
theorem drive_affected_model_firmware_pair (d : PhysicalDrive) (fixVersion : Str)
    (hm : affectedDrives.lookup d.Model = some fixVersion)
    (hs : d.Status = str "ok") :
    (strLt d.FwRev fixVersion = true →
        (GetNagiosStatus d).1 = Critical
          ∧ containsSub (str "affected") (GetNagiosStatus d).2)
      ∧ (strLt d.FwRev fixVersion = false →
        (GetNagiosStatus d).1 = OK
          ∧ containsSub (str "applied") (GetNagiosStatus d).2) := by
  have heval : GetNagiosStatus d
      = if strLt d.FwRev fixVersion = true then
          (Critical, driveInfo d ++ str " - affected by FW bug, update immediately!")
        else
          (OK, driveInfo d ++ str " - firmware update applied") := by
    unfold GetNagiosStatus
    rw [hs, if_neg (by simp), hm]
  constructor
  · intro hlt
    rw [heval, if_pos hlt]
    refine ⟨rfl, driveInfo d ++ str " - ", str " by FW bug, update immediately!", ?_⟩
    have hsplit : str " - affected by FW bug, update immediately!"
        = str " - " ++ str "affected" ++ str " by FW bug, update immediately!" := by decide
    simp only [hsplit, List.append_assoc]
  · intro hge
    rw [heval, if_neg (by simp [hge])]
    refine ⟨rfl, driveInfo d ++ str " - firmware update ", [], ?_⟩
    have hsplit : str " - firmware update applied"
        = str " - firmware update " ++ str "applied" ++ ([] : Str) := by decide
    simp only [hsplit, List.append_assoc, List.append_nil]

/-- Claim C7 witness: the test drive (model VO0480JFDGT, status ok, firmware
HPD1 below the fix HPD8) at both sides of the model+firmware rule. -/
theorem drive_affected_model_firmware_pair_witness :
    affectedDrives.lookup (str "VO0480JFDGT") = some (str "HPD8")
      ∧ strLt (str "HPD1") (str "HPD8") = true
      ∧ (GetNagiosStatus
            ⟨str "1.1", str "VO0480JFDGT", str "HPD1", str "ABC123", str "ok", 1337⟩).1
          = Critical
      ∧ containsSub (str "affected")
          (GetNagiosStatus
            ⟨str "1.1", str "VO0480JFDGT", str "HPD1", str "ABC123", str "ok", 1337⟩).2
      ∧ (GetNagiosStatus
            ⟨str "1.1", str "VO0480JFDGT", str "HPD8", str "ABC123", str "ok", 1337⟩).1
          = OK
      ∧ containsSub (str "applied")
          (GetNagiosStatus
            ⟨str "1.1", str "VO0480JFDGT", str "HPD8", str "ABC123", str "ok", 1337⟩).2 := by
  have h1 := (drive_affected_model_firmware_pair
    ⟨str "1.1", str "VO0480JFDGT", str "HPD1", str "ABC123", str "ok", 1337⟩
    (str "HPD8") (by decide) rfl).1 (by decide)
  have h2 := (drive_affected_model_firmware_pair
    ⟨str "1.1", str "VO0480JFDGT", str "HPD8", str "ABC123", str "ok", 1337⟩
    (str "HPD8") (by decide) rfl).2 (by decide)
  exact ⟨by decide, by decide, h1.1, h1.2, h2.1, h2.2⟩

/-- Claim C8: a drive whose device-reported status is "failed" evaluates to
CRITICAL with a message containing "status: failed", for all model and
firmware values — the status check fires before any firmware rule. -/
theorem drive_failed_status_critical (d : PhysicalDrive)
    (h : d.Status = str "failed") :
    (GetNagiosStatus d).1 = Critical
      ∧ containsSub (str "status: failed") (GetNagiosStatus d).2 := by
  have heval : GetNagiosStatus d
      = (Critical, driveInfo d ++ str " - status: " ++ str "failed") := by
    unfold GetNagiosStatus
    rw [h, if_pos (by decide)]
  rw [heval]
  refine ⟨rfl, driveInfo d ++ str " - ", [], ?_⟩
  have hsplit : str " - status: " ++ str "failed"
      = str " - " ++ str "status: failed" ++ ([] : Str) := by decide
  rw [List.append_assoc (driveInfo d) (str " - status: ") (str "failed"), hsplit]
  simp only [List.append_assoc, List.append_nil]

/-- Claim C8 witness: a concrete failed drive, with an affected model and
pre-fix firmware, is still reported through the status rule. -/
theorem drive_failed_status_critical_witness :
    (GetNagiosStatus
        ⟨str "1.1", str "VO0480JFDGT", str "HPD1", str "ABC123", str "failed", 1337⟩).1
      = Critical
      ∧ containsSub (str "status: failed")
        (GetNagiosStatus
          ⟨str "1.1", str "VO0480JFDGT", str "HPD1", str "ABC123", str "failed", 1337⟩).2 :=
  drive_failed_status_critical
    ⟨str "1.1", str "VO0480JFDGT", str "HPD1", str "ABC123", str "failed", 1337⟩ rfl

lemma overallAdd_Outputs (o : Overall) (state : Nat) (output : Str) :
    (OverallAdd o state output).Outputs = o.Outputs ++ [output] := by
  unfold OverallAdd
  split_ifs <;> rfl

lemma overallAdd_Criticals (o : Overall) (state : Nat) (output : Str) :
    (OverallAdd o state output).Criticals
      = if state = Critical then o.Criticals + 1 else o.Criticals := by
  unfold OverallAdd OK Warning Critical
  split_ifs <;> first | rfl | omega

lemma overallAdd_Warnings (o : Overall) (state : Nat) (output : Str) :
    (OverallAdd o state output).Warnings
      = if state = Warning then o.Warnings + 1 else o.Warnings := by
  unfold OverallAdd OK Warning Critical
  split_ifs <;> first | rfl | omega

lemma overallAdd_Summary (o : Overall) (state : Nat) (output : Str) :
    (OverallAdd o state output).Summary = o.Summary := by
  unfold OverallAdd
  split_ifs <;> rfl

lemma runAdds_go_Outputs (calls : List (Nat × Str)) (o : Overall) :
    (calls.foldl (fun o c => OverallAdd o c.1 c.2) o).Outputs
      = o.Outputs ++ calls.map Prod.snd := by
  induction calls generalizing o with
  | nil => simp
  | cons c cs ih => simp [ih, overallAdd_Outputs]

lemma runAdds_go_Criticals (calls : List (Nat × Str)) (o : Overall) :
    (calls.foldl (fun o c => OverallAdd o c.1 c.2) o).Criticals
      = o.Criticals + calls.countP (fun c => c.1 == Critical) := by
  induction calls generalizing o with
  | nil => simp
  | cons c cs ih =>
    simp only [List.foldl_cons, List.countP_cons, ih, overallAdd_Criticals]
    by_cases h : c.1 = Critical <;> (simp [h]; try omega)

lemma runAdds_go_Warnings (calls : List (Nat × Str)) (o : Overall) :
    (calls.foldl (fun o c => OverallAdd o c.1 c.2) o).Warnings
      = o.Warnings + calls.countP (fun c => c.1 == Warning) := by
  induction calls generalizing o with
  | nil => simp
  | cons c cs ih =>
    simp only [List.foldl_cons, List.countP_cons, ih, overallAdd_Warnings]
    by_cases h : c.1 = Warning <;> (simp [h]; try omega)

lemma runAdds_go_Summary (calls : List (Nat × Str)) (o : Overall) :
    (calls.foldl (fun o c => OverallAdd o c.1 c.2) o).Summary = o.Summary := by
  induction calls generalizing o with
  | nil => rfl
  | cons c cs ih => simp [ih, overallAdd_Summary]

/-- Claim C9: over any sequence of Add(severity, message) calls, the aggregator's
status is CRITICAL if any CRITICAL was added, else WARNING if any WARNING
was added, else UNKNOWN when nothing was added and OK otherwise; and the
ordered log and the rendered output carry the added messages in exactly
the Add-call order. -/
theorem overall_aggregation (calls : List (Nat × Str)) :
    OverallGetStatus (runAdds calls)
        = (if calls.any (fun c => c.1 == Critical) then Critical
           else if calls.any (fun c => c.1 == Warning) then Warning
           else if calls.isEmpty then Unknown else OK)
      ∧ (runAdds calls).Outputs = calls.map Prod.snd
      ∧ OverallGetOutput (runAdds calls) = joinLines (calls.map Prod.snd) := by
  have hout : (runAdds calls).Outputs = calls.map Prod.snd := by
    simpa using runAdds_go_Outputs calls {}
  have hcrit : (runAdds calls).Criticals = calls.countP (fun c => c.1 == Critical) := by
    simpa using runAdds_go_Criticals calls {}
  have hwarn : (runAdds calls).Warnings = calls.countP (fun c => c.1 == Warning) := by
    simpa using runAdds_go_Warnings calls {}
  have hsum : (runAdds calls).Summary = [] := by
    simpa using runAdds_go_Summary calls {}
  refine ⟨?_, hout, ?_⟩
  · unfold OverallGetStatus
    rw [hcrit, hwarn, hout]
    by_cases hc : calls.any (fun c => c.1 == Critical) = true
    · rw [if_pos (List.countP_pos_iff.mpr (List.any_eq_true.mp hc)), if_pos hc]
    · have hc' : ¬ (0 < calls.countP (fun c => c.1 == Critical)) :=
        fun h => hc (List.any_eq_true.mpr (List.countP_pos_iff.mp h))
      rw [if_neg hc', if_neg hc]
      by_cases hw : calls.any (fun c => c.1 == Warning) = true
      · rw [if_pos (List.countP_pos_iff.mpr (List.any_eq_true.mp hw)), if_pos hw]
      · have hw' : ¬ (0 < calls.countP (fun c => c.1 == Warning)) :=
          fun h => hw (List.any_eq_true.mpr (List.countP_pos_iff.mp h))
        rw [if_neg hw', if_neg hw]
        by_cases he : calls = []
        · subst he; rfl
        · rw [if_pos (by simpa using he), if_neg (by simpa [List.isEmpty_iff] using he)]
  · unfold OverallGetOutput
    rw [hout, hsum]
    rfl

lemma isOidLoop_eq_true_iff (last : Char) (l : Str) :
    isOidLoop last l = true ↔
      (List.Chain' (fun a b => ¬(a = '.' ∧ b = '.')) (last :: l)
        ∧ (∀ c ∈ l, c = '.' ∨ ('0' ≤ c ∧ c ≤ '9'))
        ∧ (last :: l).getLast? ≠ some '.') := by
  induction l generalizing last with
  | nil => simp [isOidLoop]
  | cons c rest ih =>
    by_cases hc : c = '.'
    · subst hc
      by_cases hl : last = '.'
      · subst hl
        simp [isOidLoop, List.chain'_cons]
      · have hstep : isOidLoop last ('.' :: rest) = isOidLoop '.' rest := by
          simp [isOidLoop, hl]
        rw [hstep, ih]
        simp only [List.chain'_cons, List.getLast?_cons_cons, List.forall_mem_cons]
        constructor
        · rintro ⟨h1, h2, h3⟩
          exact ⟨⟨fun hh => hl hh.1, h1⟩, ⟨by simp, h2⟩, h3⟩
        · rintro ⟨⟨-, h1⟩, ⟨-, h2⟩, h3⟩
          exact ⟨h1, h2, h3⟩
    · cases hd : ('0' ≤ c && c ≤ '9') with
      | true =>
        have hd' : '0' ≤ c ∧ c ≤ '9' := by simpa using hd
        have hstep : isOidLoop last (c :: rest) = isOidLoop c rest := by
          simp [isOidLoop, hc, hd]
        rw [hstep, ih]
        simp only [List.chain'_cons, List.getLast?_cons_cons, List.forall_mem_cons]
        constructor
        · rintro ⟨h1, h2, h3⟩
          exact ⟨⟨fun hh => hc hh.2, h1⟩, ⟨Or.inr hd', h2⟩, h3⟩
        · rintro ⟨⟨-, h1⟩, ⟨-, h2⟩, h3⟩
          exact ⟨h1, h2, h3⟩
      | false =>
        have hd' : ¬('0' ≤ c ∧ c ≤ '9') := by simpa using hd
        have hstep : isOidLoop last (c :: rest) = false := by
          simp [isOidLoop, hc, hd]
        rw [hstep]
        constructor
        · intro h; exact absurd h (by simp)
        · rintro ⟨-, h2, -⟩
          rcases (List.forall_mem_cons.mp h2).1 with h | h
          · exact absurd h hc
          · exact absurd h hd'

/-- Claim C4: `IsOid` returns true exactly on the spec's Path invariant
(non-empty, leading separator, no two consecutive separators, no trailing
separator, all non-separator characters decimal digits), and returns false
on every string shorter than 2 characters. -/
theorem isOid_matches_path_invariant (s : Str) :
    (IsOid s = true ↔ IsPathSpec s) ∧ (s.length < 2 → IsOid s = false) := by
  constructor
  · cases s with
    | nil =>
      constructor
      · intro h; exact absurd h (by simp [IsOid])
      · intro h; exact absurd rfl h.1
    | cons c rest =>
      by_cases hc : c = '.'
      · subst hc
        cases rest with
        | nil =>
          constructor
          · intro h; exact absurd h (by simp [IsOid])
          · rintro ⟨-, -, -, h4, -⟩; exact absurd rfl h4
        | cons r rs =>
          have hstep : IsOid ('.' :: r :: rs) = isOidLoop '.' (r :: rs) := rfl
          rw [hstep, isOidLoop_eq_true_iff]
          unfold IsPathSpec
          constructor
          · rintro ⟨h1, h2, h3⟩
            refine ⟨by simp, rfl, h1, h3, ?_⟩
            intro x hx
            rcases List.mem_cons.mp hx with h | h
            · exact Or.inl h
            · exact h2 x h
          · rintro ⟨-, -, h3, h5, h6⟩
            exact ⟨h3, fun x hx => h6 x (List.mem_cons_of_mem _ hx), h5⟩
      · have hstep : IsOid (c :: rest) = false := by
          simp [IsOid, hc]
        rw [hstep]
        constructor
        · intro h; exact absurd h (by simp)
        · rintro ⟨-, h2, -, -, -⟩
          exact (hc (by simpa using h2)).elim
  · intro hlen
    cases s with
    | nil => rfl
    | cons c rest =>
      cases rest with
      | nil => cases hbe : (c == '.') <;> simp [IsOid, hbe]
      | cons r rs =>
        simp [List.length_cons] at hlen
        omega

/-- Claim C4 witness: the invariant at the concrete strings of the spec's
testable properties. -/
theorem isOid_matches_path_invariant_witness :
    IsOid (str ".") = false ∧ IsPathSpec (str ".1.1") :=
  ⟨(isOid_matches_path_invariant (str ".")).2 (by decide),
   (isOid_matches_path_invariant (str ".1.1")).1.mp (by decide)⟩

/-- Claim C3 counterexample: ".1" and ".1.2" are both valid paths with the child
shorter than the parent, yet `IsOidPartOf ".1" ".1.2"` does not return
false: the Go slice `oid[:lenBase]` goes out of range and panics (modelled
as `none`). -/
theorem isOidPartOf_shorter_counterexample :
    IsOid (str ".1") = true ∧ IsOid (str ".1.2") = true
      ∧ IsOidPartOf (str ".1") (str ".1.2") = none
      ∧ IsOidPartOf (str ".1") (str ".1.2") ≠ some false := by
  decide

/-- Claim C3 amended: `IsOidPartOf` returns false whenever an argument fails
`IsOid`; when both are valid and the child is at least as long as the
parent it returns a boolean that is true exactly on the spec's label-
boundary sub-path relation (child equal to parent, or parent followed
immediately by a separator); but when both are valid and the child is
strictly shorter than the parent it panics instead of returning false. -/
theorem isOidPartOf_characterization (child parent : Str) :
    (¬(IsOid child = true ∧ IsOid parent = true) →
        IsOidPartOf child parent = some false)
      ∧ (IsOid child = true → IsOid parent = true →
          child.length < parent.length → IsOidPartOf child parent = none)
      ∧ (parent.length ≤ child.length →
          (IsOidPartOf child parent = some true ↔ IsSubPathSpec child parent)
            ∧ IsOidPartOf child parent ≠ none) := by
  refine ⟨?_, ?_, ?_⟩
  · intro h
    unfold IsOidPartOf
    have hcond : (!(IsOid child) || !(IsOid parent)) = true := by
      cases hx : IsOid child <;> cases hy : IsOid parent <;> simp_all
    rw [if_pos hcond]
  · intro hc hp hlt
    simp [IsOidPartOf, hc, hp, hlt]
  · intro hlen
    have hnlt : ¬(child.length < parent.length) := not_lt.mpr hlen
    by_cases hval : IsOid child = true ∧ IsOid parent = true
    · obtain ⟨hc, hp⟩ := hval
      have hguard : IsOidPartOf child parent
          = (if child.take parent.length = parent then
              if child.length = parent.length then some true
              else if (child.take (parent.length + 1)).drop parent.length = ['.'] then
                some true
              else some false
            else some false) := by
        unfold IsOidPartOf
        rw [hc, hp]
        simp only [Bool.not_true, Bool.or_self]
        rw [if_neg (by simp), if_neg hnlt]
      rw [hguard]
      by_cases hpre : child.take parent.length = parent
      · rw [if_pos hpre]
        by_cases heq : child.length = parent.length
        · rw [if_pos heq]
          have hcp : child = parent := by
            have h1 : child.take parent.length = child := by
              rw [← heq, List.take_length]
            rw [h1] at hpre
            exact hpre
          exact ⟨⟨fun _ => ⟨hc, hp, Or.inl hcp⟩, fun _ => rfl⟩, by simp⟩
        · rw [if_neg heq]
          have hsplit : child = parent ++ child.drop parent.length := by
            conv_lhs => rw [← List.take_append_drop parent.length child]
            rw [hpre]
          have hdrop_ne : child.drop parent.length ≠ [] := by
            intro hnil
            have hgl := congrArg List.length hsplit
            rw [hnil] at hgl
            simp at hgl
            exact heq hgl
          obtain ⟨r, rs, hr⟩ : ∃ r rs, child.drop parent.length = r :: rs := by
            cases hx : child.drop parent.length with
            | nil => exact absurd hx hdrop_ne
            | cons a b => exact ⟨a, b, rfl⟩
          have hdt : (child.take (parent.length + 1)).drop parent.length = [r] := by
            rw [List.drop_take, Nat.add_sub_cancel_left, hr]
            rfl
          by_cases hrdot : r = '.'
          · rw [if_pos (by rw [hdt, hrdot])]
            refine ⟨⟨fun _ => ⟨hc, hp, Or.inr ⟨rs, ?_⟩⟩, fun _ => rfl⟩, by simp⟩
            rw [hsplit, hr, hrdot]
          · rw [if_neg (by rw [hdt]; simpa using hrdot)]
            refine ⟨⟨fun h => absurd h (by simp), ?_⟩, by simp⟩
            rintro ⟨-, -, hsub⟩
            rcases hsub with hcp | ⟨rest, hrest⟩
            · exact absurd (congrArg List.length hcp) heq
            · have happ : parent ++ r :: rs = parent ++ '.' :: rest := by
                rw [← hr, ← hsplit, hrest]
              have hcons : (r : Char) :: rs = '.' :: rest :=
                List.append_cancel_left happ
              exact absurd (List.cons_eq_cons.mp hcons).1 hrdot
      · rw [if_neg hpre]
        refine ⟨⟨fun h => absurd h (by simp), ?_⟩, by simp⟩
        rintro ⟨-, -, hsub⟩
        rcases hsub with hcp | ⟨rest, hrest⟩
        · exact absurd (by rw [hcp, List.take_length]) hpre
        · refine absurd ?_ hpre
          rw [hrest]
          exact List.take_left parent ('.' :: rest)
    · have heq : IsOidPartOf child parent = some false := by
        unfold IsOidPartOf
        have hcond : (!(IsOid child) || !(IsOid parent)) = true := by
          cases hx : IsOid child <;> cases hy : IsOid parent <;> simp_all
        rw [if_pos hcond]
      rw [heq]
      exact ⟨⟨fun h => absurd h (by simp), fun h => absurd ⟨h.1, h.2.1⟩ hval⟩, by simp⟩

/-- Claim C3 witness: the label-boundary examples and the panic input, all at
concrete strings. -/
theorem isOidPartOf_characterization_witness :
    (IsOidPartOf (str ".1.3.6.1.1.5.1.1") (str ".1.3.6.1.1.5") = some true
        ↔ IsSubPathSpec (str ".1.3.6.1.1.5.1.1") (str ".1.3.6.1.1.5"))
      ∧ (IsOidPartOf (str ".1.3.6.1.1.50") (str ".1.3.6.1.1.5") = some true
        ↔ IsSubPathSpec (str ".1.3.6.1.1.50") (str ".1.3.6.1.1.5"))
      ∧ IsOidPartOf (str ".1") (str ".1.2") = none :=
  ⟨((isOidPartOf_characterization (str ".1.3.6.1.1.5.1.1") (str ".1.3.6.1.1.5")).2.2
      (by decide)).1,
   ((isOidPartOf_characterization (str ".1.3.6.1.1.50") (str ".1.3.6.1.1.5")).2.2
      (by decide)).1,
   (isOidPartOf_characterization (str ".1") (str ".1.2")).2.1
      (by decide) (by decide) (by decide)⟩

end CheckHpFirmware
